import Mathlib

/-!
Verification of the `Button` widget from `src/wgpu-ui/src/ui/button.rs`.

Coordinates (`f32`/`f64` in the source) are embedded as rationals `ℚ`.
The graphics collaborators (`RectangleShape`, `Text`, colors) are not part of
the given sources; their tiny interfaces are modelled from the spec and marked
as such. The `Button` structure and all of its operations are translated
directly from `button.rs`.
-/

/-- A 2D vector of coordinates, embedding `glam::Vec2` (with `f32` modelled as `ℚ`). -/
structure Vec2 where
  x : ℚ
  y : ℚ
deriving DecidableEq

/-- A 4-component vector, embedding `glam::Vec4`; the Button uses one for its paddings. -/
structure Vec4 where
  x : ℚ
  y : ℚ
  z : ℚ
  w : ℚ
deriving DecidableEq

/-- Modelled from the spec: the spec names the four padding scalars
left, top, right, bottom; the source sums `x + w` on the horizontal axis and
`y + z` on the vertical axis, so the consistent naming is left = x, right = w,
top = y, bottom = z. -/
def Vec4.left (v : Vec4) : ℚ := v.x

/-- Spec name for the top padding component (see `Vec4.left`). -/
def Vec4.top (v : Vec4) : ℚ := v.y

/-- Spec name for the bottom padding component (see `Vec4.left`). -/
def Vec4.bottom (v : Vec4) : ℚ := v.z

/-- Spec name for the right padding component (see `Vec4.left`). -/
def Vec4.right (v : Vec4) : ℚ := v.w

/-- Embedding of `f32::round` as used on cursor coordinates: round half away
from zero. -/
def rustRound (q : ℚ) : ℚ :=
  if 0 ≤ q then ((⌊q + 1/2⌋ : ℤ) : ℚ) else ((⌈q - 1/2⌉ : ℤ) : ℚ)

/-- Modelled from the spec: the fixed palette of named color constants
`RED`, `GREEN`, `BLUE` imported from the graphics collaborator (whose sources
are not given). -/
inductive Color
  | RED
  | GREEN
  | BLUE
deriving DecidableEq

/-- Modelled from the spec: an axis-aligned box `{x, y, w, h}` in logical
pixels, top-left origin, y increasing downward. -/
structure Bounds where
  x : ℚ
  y : ℚ
  width : ℚ
  height : ℚ
deriving DecidableEq

/-- Modelled from the spec: the edge-inclusive hit test — a point `(px, py)`
lies in bounds iff `x ≤ px ≤ x + w` and `y ≤ py ≤ y + h`. -/
def Bounds.contains (b : Bounds) (p : Vec2) : Bool :=
  decide (b.x ≤ p.x) && decide (p.x ≤ b.x + b.width) &&
  decide (b.y ≤ p.y) && decide (p.y ≤ b.y + b.height)

/-- Modelled from the spec: the `Shape` primitive for the rectangle, with
`position`, `size`, `fill_color` controls; its sources are not given. -/
structure RectangleShape where
  position : Vec2
  size : Vec2
  fill_color : Color
deriving DecidableEq

/-- Modelled from the spec: `RectangleShape::new(ctx, size)` — a rectangle of
the given size at the origin; the initial fill color is the Idle color RED
(spec state machine: the initial state is Idle (RED)). -/
def RectangleShape.new (size : Vec2) : RectangleShape :=
  { position := ⟨0, 0⟩, size := size, fill_color := Color.RED }

/-- Modelled from the spec: `Shape::set_position`. -/
def RectangleShape.set_position (r : RectangleShape) (p : Vec2) : RectangleShape :=
  { r with position := p }

/-- Modelled from the spec: `Shape::set_size`. -/
def RectangleShape.set_size (r : RectangleShape) (s : Vec2) : RectangleShape :=
  { r with size := s }

/-- Modelled from the spec: `Shape::set_fill_color`. -/
def RectangleShape.set_fill_color (r : RectangleShape) (c : Color) : RectangleShape :=
  { r with fill_color := c }

/-- Modelled from the spec: `Shape::bounds` — the axis-aligned box spanned by
the rectangle's position and size, used for hit testing. -/
def RectangleShape.bounds (r : RectangleShape) : Bounds :=
  { x := r.position.x, y := r.position.y, width := r.size.x, height := r.size.y }

/-- Measured text bounds `{width, height}` as returned by `Text::bounds`. -/
structure TextBounds where
  width : ℚ
  height : ℚ
deriving DecidableEq

/-- Modelled from the spec: the `Text` primitive. Text measurement (string,
font, shaping) is outside the given sources, so the measured bounds are
abstracted as a constant field fixed at construction. -/
structure Text where
  position : Vec2
  character_size : ℚ
  measured : TextBounds
deriving DecidableEq

/-- Modelled from the spec: `Text::bounds` returning `{width, height}`. -/
def Text.bounds (t : Text) : TextBounds := t.measured

/-- Modelled from the spec: `Text::set_position`. -/
def Text.set_position (t : Text) (p : Vec2) : Text := { t with position := p }

/-- Modelled from the spec: `Text::set_character_size`. -/
def Text.set_character_size (t : Text) (s : ℚ) : Text := { t with character_size := s }

/-- The semantic event kind of a Button (`enum ButtonEvent`). -/
inductive ButtonEvent
  | Click
  | Hover
deriving DecidableEq

/-- The numeric code of an event, `e as u32` in the source: Click = 0, Hover = 1. -/
def ButtonEvent.asU32 : ButtonEvent → Nat
  | .Click => 0
  | .Hover => 1

/-- Embedding of `impl From<u32> for ButtonEvent`: 0 maps to Click, every other value to Hover. -/
def ButtonEvent.fromU32 : Nat → ButtonEvent
  | 0 => .Click
  | _ => .Hover

/-- Embedding of `winit::event::ElementState`. -/
inductive ElementState
  | Pressed
  | Released
deriving DecidableEq

/-- Embedding of `winit::event::MouseButton`. -/
inductive MouseButton
  | Left
  | Right
  | Middle
  | Back
  | Forward
  | OtherButton (code : Nat)
deriving DecidableEq

/-- Embedding of `winit::event::WindowEvent`, restricted to the payloads the Button reads:
cursor moves, mouse input, and an opaque tag for every other window event
(which all fall into the wildcard arm of `process_events`). -/
inductive WindowEvent
  | CursorMoved (position : Vec2)
  | MouseInput (state : ElementState) (button : MouseButton)
  | Other (tag : Nat)
deriving DecidableEq

/-- Embedding of `struct Button`, with the same fields as the source. -/
structure Button where
  rect : RectangleShape
  label : Text
  position : Vec2
  mouse_position : Vec2
  paddings : Vec4
  events : List ButtonEvent
  visible : Bool
  size : Vec2
deriving DecidableEq

/-- Embedding of `Button::new(text, context)`. The label's measured bounds (which in the
source come from the font registry and text shaper, outside the given
sources) are taken as a parameter; everything else follows the source:
position at the origin, rectangle sized exactly to the label bounds,
default mouse position `(0, 0)`, zero paddings, empty queue, visible. -/
def Button.new (label_bounds : TextBounds) : Button :=
  let position : Vec2 := ⟨0, 0⟩
  let label : Text := { position := position, character_size := 30, measured := label_bounds }
  let rect := (RectangleShape.new ⟨label_bounds.width, label_bounds.height⟩).set_position position
  { rect := rect
    label := label
    position := position
    mouse_position := ⟨0, 0⟩
    paddings := ⟨0, 0, 0, 0⟩
    events := []
    visible := true
    size := ⟨0, 0⟩ }

/-- Embedding of `Widget::update` for Button: recompute the rectangle size from label
bounds plus paddings and re-center the label. -/
def Button.update (b : Button) : Button :=
  let label_bounds := b.label.bounds
  let size : Vec2 := ⟨label_bounds.width + b.paddings.x + b.paddings.w,
                      label_bounds.height + b.paddings.y + b.paddings.z⟩
  let label_position : Vec2 := ⟨b.position.x + (size.x - label_bounds.width) / 2,
                                b.position.y + (size.y - label_bounds.height) / 2⟩
  { b with rect := b.rect.set_size size,
           label := b.label.set_position label_position }

/-- Embedding of `Transformable::position` for Button (the getter; the structure field
keeps the source name `position`, so the getter is renamed). -/
def Button.getPosition (b : Button) : Vec2 := b.rect.position

/-- Embedding of `Transformable::set_position` for Button. -/
def Button.set_position (b : Button) (position : Vec2) : Button :=
  Button.update { b with position := position,
                         label := b.label.set_position position,
                         rect := b.rect.set_position position }

/-- Embedding of `Button::set_character_size`. -/
def Button.set_character_size (b : Button) (character_size : ℚ) : Button :=
  { b with label := b.label.set_character_size character_size }

/-- Embedding of `Button::set_paddings`. -/
def Button.set_paddings (b : Button) (paddings : Vec4) : Button :=
  Button.update { b with paddings := paddings }

/-- Embedding of `Widget::set_visibility` for Button. -/
def Button.set_visibility (b : Button) (visibility : Bool) : Button :=
  { b with visible := visibility }

/-- Embedding of `Widget::size` for Button (the getter, returning the rectangle's extent;
the structure field keeps the source name `size`, so the getter is renamed). -/
def Button.getSize (b : Button) : Vec2 := b.rect.size

/-- Embedding of `Widget::set_size` for Button: adds the paddings to the requested extent,
stores the result in the `size` field and sets the rectangle to it. -/
def Button.set_size (b : Button) (requested : Vec2) : Button :=
  let size : Vec2 := ⟨requested.x + b.paddings.x + b.paddings.w,
                      requested.y + b.paddings.y + b.paddings.z⟩
  { b with size := size, rect := b.rect.set_size size }

/-- Embedding of `Widget::events` for Button: drains the queue, invoking the handler on
each event's numeric code in FIFO order. The side-effecting `Fn(u32)` handler
is embedded as a state-threading function; the pair returned is the Button
after the drain and the handler's final state. -/
def Button.events_run {σ : Type} (b : Button) (handler : σ → Nat → σ) (s : σ) : Button × σ :=
  ({ b with events := [] }, b.events.foldl (fun acc e => handler acc e.asU32) s)

/-- Embedding of `Widget::emitted` for Button: drains the queue and returns true iff the
drained events, filtered to those whose numeric code equals the argument,
form a non-empty list. -/
def Button.emitted (b : Button) (event : Nat) : Button × Bool :=
  ({ b with events := [] }, !(b.events.filter (fun e => e.asU32 == event)).isEmpty)

/-- Embedding of `Widget::process_events` for Button, translated arm by arm from the
source, including the inner (dead) `Released` arm guarded by
`state == Pressed`. -/
def Button.process_events (b : Button) (event : WindowEvent) : Button :=
  let bounds := b.rect.bounds
  match event with
  | .CursorMoved position =>
      let mouse_position : Vec2 := ⟨rustRound position.x, rustRound position.y⟩
      let b := { b with mouse_position := mouse_position }
      if bounds.contains mouse_position then
        { b with rect := b.rect.set_fill_color Color.GREEN,
                 events := b.events ++ [ButtonEvent.Hover] }
      else
        { b with rect := b.rect.set_fill_color Color.RED }
  | .MouseInput state .Left =>
      if state == ElementState.Pressed && bounds.contains b.mouse_position then
        match state with
        | .Pressed =>
            { b with events := b.events ++ [ButtonEvent.Click],
                     rect := b.rect.set_fill_color Color.BLUE }
        | .Released =>
            { b with rect := b.rect.set_fill_color Color.RED }
      else b
  | _ => b

/-- Folding `process_events` over a sequence of window events, in the order
the host delivers them. -/
def Button.processList (b : Button) (es : List WindowEvent) : Button :=
  es.foldl Button.process_events b

/-! ## Helper lemmas -/

/-- Folding an append-accumulator over a list collects the mapped elements in
order. -/
theorem foldl_snoc_map {α β : Type} (f : α → β) (l : List α) (acc : List β) :
    l.foldl (fun s e => s ++ [f e]) acc = acc ++ l.map f := by
  induction l generalizing acc with
  | nil => simp
  | cons a l ih => simp [ih]

/-! ## Claims -/

/-- Claim C1: after `update()`, the rectangle's size equals the label's
measured bounds plus the paddings on each axis (width = label width + left +
right paddings, height = label height + top + bottom paddings), and the
label's position equals the anchor plus half the difference between the
rectangle size and the label bounds on each axis, to within one pixel. -/
theorem update_sizes_and_centers (b : Button) :
    b.update.rect.size.x = b.label.bounds.width + b.paddings.left + b.paddings.right ∧
    b.update.rect.size.y = b.label.bounds.height + b.paddings.top + b.paddings.bottom ∧
    |b.update.label.position.x -
      (b.update.position.x + (b.update.rect.size.x - b.update.label.bounds.width) / 2)| < 1 ∧
    |b.update.label.position.y -
      (b.update.position.y + (b.update.rect.size.y - b.update.label.bounds.height) / 2)| < 1 := by
  refine ⟨rfl, rfl, ?_, ?_⟩ <;>
    simp [Button.update, Text.bounds, Text.set_position, RectangleShape.set_size]

/-- Claim C3: processing a cursor-moved event appends exactly one Hover event
and turns the fill GREEN when the rounded position lies in bounds, and
appends nothing and turns the fill RED when it lies outside. -/
theorem cursor_moved_hover (b : Button) (p : Vec2) :
    (b.process_events (WindowEvent.CursorMoved p)).events =
      (if b.rect.bounds.contains ⟨rustRound p.x, rustRound p.y⟩ then
        b.events ++ [ButtonEvent.Hover] else b.events) ∧
    (b.process_events (WindowEvent.CursorMoved p)).rect.fill_color =
      (if b.rect.bounds.contains ⟨rustRound p.x, rustRound p.y⟩ then
        Color.GREEN else Color.RED) := by
  by_cases hc : b.rect.bounds.contains ⟨rustRound p.x, rustRound p.y⟩ = true <;>
    simp [Button.process_events, RectangleShape.set_fill_color, hc]

/-- Claim C4: `emitted(k)` removes all events from the queue and returns true
iff at least one removed event's numeric code equals `k`; consequently a
subsequent `emitted(j)` for any `j` returns false. -/
theorem emitted_drains (b : Button) (k : Nat) :
    (b.emitted k).1.events = [] ∧
    ((b.emitted k).2 = true ↔ ∃ e ∈ b.events, e.asU32 = k) ∧
    (∀ j, ((b.emitted k).1.emitted j).2 = false) := by
  refine ⟨rfl, ?_, fun j => rfl⟩
  simp [Button.emitted, List.isEmpty_iff, List.filter_eq_nil_iff]

/-- Claim C5: `events(handler)` invokes the handler once per queued event, in
FIFO (enqueue) order, with each event's numeric code, and leaves the queue
empty; an immediately following drain invokes the handler zero times. -/
theorem events_run_fifo (b : Button) :
    (b.events_run (fun l k => l ++ [k]) ([] : List Nat)).2 = b.events.map ButtonEvent.asU32 ∧
    (b.events_run (fun l k => l ++ [k]) ([] : List Nat)).1.events = [] ∧
    ((b.events_run (fun l k => l ++ [k]) ([] : List Nat)).1.events_run
        (fun l k => l ++ [k]) ([] : List Nat)).2 = [] := by
  refine ⟨?_, rfl, rfl⟩
  simpa [Button.events_run] using foldl_snoc_map ButtonEvent.asU32 b.events []

/-- Claim C7: `set_size(e)` stores `(e.x + left + right paddings, e.y + top +
bottom paddings)` and sets the rectangle to that extent, but the next
`update()` recomputes the rectangle's size from the label bounds plus the
paddings, discarding the override. -/
theorem set_size_override_discarded (b : Button) (e : Vec2) :
    (b.set_size e).size =
      ⟨e.x + b.paddings.left + b.paddings.right, e.y + b.paddings.top + b.paddings.bottom⟩ ∧
    (b.set_size e).rect.size = (b.set_size e).size ∧
    (b.set_size e).update.rect.size =
      ⟨b.label.bounds.width + b.paddings.left + b.paddings.right,
       b.label.bounds.height + b.paddings.top + b.paddings.bottom⟩ :=
  ⟨rfl, rfl, rfl⟩

/-- Claim C9: the numeric event encoding round-trips:
`fromU32 (Click as u32) = Click` and `fromU32 (Hover as u32) = Hover`, where
the mapping takes 0 to Click and every other code to Hover. -/
theorem from_u32_round_trip :
    ButtonEvent.fromU32 ButtonEvent.Click.asU32 = ButtonEvent.Click ∧
    ButtonEvent.fromU32 ButtonEvent.Hover.asU32 = ButtonEvent.Hover ∧
    ButtonEvent.fromU32 0 = ButtonEvent.Click ∧
    (∀ v : Nat, v ≠ 0 → ButtonEvent.fromU32 v = ButtonEvent.Hover) := by
  refine ⟨rfl, rfl, rfl, fun v hv => ?_⟩
  cases v with
  | zero => exact absurd rfl hv
  | succ n => rfl

/-- Witness for claim C9 at the concrete code 5. -/
theorem from_u32_round_trip_witness : ButtonEvent.fromU32 5 = ButtonEvent.Hover :=
  from_u32_round_trip.2.2.2 5 (by decide)

/-! ## Trace lemmas for the click-precedence claim -/

/-- Processing a window event never changes the rectangle's bounds: only the
fill color, the mouse position and the queue are touched. -/
theorem process_events_bounds (b : Button) (e : WindowEvent) :
    (b.process_events e).rect.bounds = b.rect.bounds := by
  cases e with
  | CursorMoved p =>
      simp only [Button.process_events]
      split <;> rfl
  | MouseInput s btn =>
      cases btn <;> cases s <;> simp only [Button.process_events] <;> try rfl
      all_goals (split <;> rfl)
  | Other tag => rfl

/-- Processing a cursor-moved event sets the mouse position to the rounded
cursor coordinates, in both the in-bounds and the out-of-bounds branch. -/
theorem process_events_cursor_mouse (b : Button) (p : Vec2) :
    (b.process_events (WindowEvent.CursorMoved p)).mouse_position =
      ⟨rustRound p.x, rustRound p.y⟩ := by
  simp only [Button.process_events]
  split <;> rfl

/-- Processing a mouse-input event leaves the mouse position unchanged. -/
theorem process_events_input_mouse (b : Button) (s : ElementState) (btn : MouseButton) :
    (b.process_events (WindowEvent.MouseInput s btn)).mouse_position = b.mouse_position := by
  cases btn <;> cases s <;> simp only [Button.process_events] <;> try rfl
  all_goals (split <;> rfl)

/-- Each Click present after processing one event was already queued, or was
pushed by this event, which then was a left press with the mouse position in
the rectangle's bounds. -/
theorem process_events_click_source (b : Button) (e : WindowEvent)
    (h : ButtonEvent.Click ∈ (b.process_events e).events) :
    ButtonEvent.Click ∈ b.events ∨
      (e = WindowEvent.MouseInput ElementState.Pressed MouseButton.Left ∧
        b.rect.bounds.contains b.mouse_position = true) := by
  cases e with
  | CursorMoved p =>
      left
      simp only [Button.process_events] at h
      split at h
      · simpa using h
      · exact h
  | MouseInput s btn =>
      cases btn <;> cases s <;> simp only [Button.process_events] at h <;>
        try exact Or.inl h
      by_cases hc : b.rect.bounds.contains b.mouse_position = true
      · exact Or.inr ⟨rfl, hc⟩
      · simp [hc] at h
        exact Or.inl h
  | Other tag => exact Or.inl h

/-- An in-bounds cursor-moved event occurs somewhere in the sequence, judged
against the given bounds. -/
def hasInBoundsMove (B : Bounds) (es : List WindowEvent) : Prop :=
  ∃ p, WindowEvent.CursorMoved p ∈ es ∧ B.contains ⟨rustRound p.x, rustRound p.y⟩ = true

/-- Generalized trace invariant: with bounds fixed at `B` through the window
events, if every Click already queued and every in-bounds mouse position is
justified by `J`, then a Click after the trace is justified by an in-bounds
move in the trace or by `J`. -/
theorem processList_click_aux (B : Bounds) (es : List WindowEvent) (b : Button) (J : Prop)
    (hB : b.rect.bounds = B)
    (hM : B.contains b.mouse_position = true → J)
    (hC : ButtonEvent.Click ∈ b.events → J) :
    ButtonEvent.Click ∈ (b.processList es).events → hasInBoundsMove B es ∨ J := by
  induction es generalizing b J with
  | nil => exact fun h => Or.inr (hC h)
  | cons e es ih =>
      intro h
      have hstep : b.processList (e :: es) = (b.process_events e).processList es := rfl
      rw [hstep] at h
      have hmain := ih (b.process_events e)
        (J ∨ (∃ p, e = WindowEvent.CursorMoved p ∧
          B.contains ⟨rustRound p.x, rustRound p.y⟩ = true))
        (by rw [process_events_bounds]; exact hB)
        (by
          cases e with
          | CursorMoved p =>
              rw [process_events_cursor_mouse]
              exact fun hc => Or.inr ⟨p, rfl, hc⟩
          | MouseInput s btn =>
              rw [process_events_input_mouse]
              exact fun hc => Or.inl (hM hc)
          | Other tag => exact fun hc => Or.inl (hM hc))
        (by
          intro hcl
          rcases process_events_click_source b e hcl with hold | ⟨he, hc⟩
          · exact Or.inl (hC hold)
          · rw [hB] at hc
            exact Or.inl (hM hc))
        h
      rcases hmain with ⟨p, hp, hc⟩ | hJ | ⟨p, rfl, hc⟩
      · exact Or.inl ⟨p, List.mem_cons_of_mem _ hp, hc⟩
      · exact Or.inr hJ
      · exact Or.inl ⟨p, List.mem_cons_self _ _, hc⟩

/-- Claim C2, counterexample: a left press immediately after construction,
with no cursor-moved event anywhere in the processed sequence, already
enqueues a Click — the default mouse position `(0, 0)` lies (edge-inclusively)
inside the rectangle, which is constructed at the origin. -/
theorem click_without_cursor_move :
    ButtonEvent.Click ∈ ((Button.new ⟨40, 20⟩).processList
      [WindowEvent.MouseInput ElementState.Pressed MouseButton.Left]).events := by
  simp [Button.new, Button.processList, Button.process_events, RectangleShape.new,
    RectangleShape.set_position, RectangleShape.bounds, Bounds.contains]

/-- Claim C2 (amended): every Click in the queue after processing a sequence
of window events was preceded by an in-bounds cursor-moved event, or was
enqueued while the default initial mouse position `(0, 0)` lay inside the
rectangle's bounds — which does happen, since the Button is constructed at
the origin and the hit test is edge-inclusive. Applied to each prefix of a
trace this gives the precedence property. -/
theorem click_needs_in_bounds_pointer (lb : TextBounds) (es : List WindowEvent)
    (h : ButtonEvent.Click ∈ ((Button.new lb).processList es).events) :
    hasInBoundsMove (Button.new lb).rect.bounds es ∨
      (Button.new lb).rect.bounds.contains ⟨0, 0⟩ = true :=
  processList_click_aux (Button.new lb).rect.bounds es (Button.new lb)
    ((Button.new lb).rect.bounds.contains ⟨0, 0⟩ = true)
    rfl (fun hm => hm) (fun hc => absurd hc (by simp [Button.new])) h

/-- Witness for claim C2 (amended) on the concrete one-event trace of a left
press right after construction. -/
theorem click_needs_in_bounds_pointer_witness :
    (ButtonEvent.Click ∈ ((Button.new ⟨40, 20⟩).processList
        [WindowEvent.MouseInput ElementState.Pressed MouseButton.Left]).events) ∧
    (hasInBoundsMove (Button.new ⟨40, 20⟩).rect.bounds
        [WindowEvent.MouseInput ElementState.Pressed MouseButton.Left] ∨
      (Button.new ⟨40, 20⟩).rect.bounds.contains ⟨0, 0⟩ = true) :=
  ⟨by simp [Button.new, Button.processList, Button.process_events, RectangleShape.new,
      RectangleShape.set_position, RectangleShape.bounds, Bounds.contains],
   click_needs_in_bounds_pointer ⟨40, 20⟩ _
     (by simp [Button.new, Button.processList, Button.process_events, RectangleShape.new,
        RectangleShape.set_position, RectangleShape.bounds, Bounds.contains])⟩

/-- Claim C6: ignored inputs — a mouse-input event for a non-left button, a
left press while the pointer position is outside the rectangle's bounds, and
any window event other than cursor-moved and mouse-input — leave the entire
Button state unchanged. (`process_events` is a total function of the state
and the event, so it can never fail.) -/
theorem ignored_events_no_change (b : Button) :
    (∀ (s : ElementState) (btn : MouseButton), btn ≠ MouseButton.Left →
        b.process_events (WindowEvent.MouseInput s btn) = b) ∧
    (b.rect.bounds.contains b.mouse_position = false →
        b.process_events (WindowEvent.MouseInput ElementState.Pressed MouseButton.Left) = b) ∧
    (∀ tag, b.process_events (WindowEvent.Other tag) = b) := by
  refine ⟨fun s btn hbtn => ?_, fun hout => ?_, fun tag => rfl⟩
  · cases btn <;> cases s <;> first | exact absurd rfl hbtn | rfl
  · simp [Button.process_events, hout]

/-- Witness for claim C6: a right-button press on a fresh Button, and a left
press on a Button whose recorded mouse position (100, 100) is outside its
bounds, both leave the state unchanged. -/
theorem ignored_events_no_change_witness :
    ((Button.mk ⟨⟨0, 0⟩, ⟨40, 20⟩, Color.RED⟩ ⟨⟨0, 0⟩, 30, ⟨40, 20⟩⟩ ⟨0, 0⟩ ⟨0, 0⟩
        ⟨0, 0, 0, 0⟩ [] true ⟨0, 0⟩).process_events
        (WindowEvent.MouseInput ElementState.Pressed MouseButton.Right) =
      Button.mk ⟨⟨0, 0⟩, ⟨40, 20⟩, Color.RED⟩ ⟨⟨0, 0⟩, 30, ⟨40, 20⟩⟩ ⟨0, 0⟩ ⟨0, 0⟩
        ⟨0, 0, 0, 0⟩ [] true ⟨0, 0⟩) ∧
    ((Button.mk ⟨⟨0, 0⟩, ⟨40, 20⟩, Color.RED⟩ ⟨⟨0, 0⟩, 30, ⟨40, 20⟩⟩ ⟨0, 0⟩ ⟨100, 100⟩
        ⟨0, 0, 0, 0⟩ [] true ⟨0, 0⟩).process_events
        (WindowEvent.MouseInput ElementState.Pressed MouseButton.Left) =
      Button.mk ⟨⟨0, 0⟩, ⟨40, 20⟩, Color.RED⟩ ⟨⟨0, 0⟩, 30, ⟨40, 20⟩⟩ ⟨0, 0⟩ ⟨100, 100⟩
        ⟨0, 0, 0, 0⟩ [] true ⟨0, 0⟩) :=
  ⟨(ignored_events_no_change _).1 ElementState.Pressed MouseButton.Right (by simp),
   (ignored_events_no_change _).2.1
     (by norm_num [RectangleShape.bounds, Bounds.contains])⟩

/-- Claim C8, counterexample: after a `set_size` override, `set_position`
does change the Button's size — `set_position` triggers `update()`, which
recomputes the rectangle extent from label bounds plus paddings, discarding
the override (here the override (100, 100) reverts to (40, 20)). -/
theorem set_position_changes_overridden_size :
    (((Button.new ⟨40, 20⟩).set_size ⟨100, 100⟩).set_position ⟨5, 5⟩).getSize ≠
      ((Button.new ⟨40, 20⟩).set_size ⟨100, 100⟩).getSize := by
  norm_num [Button.new, Button.set_size, Button.set_position, Button.update, Button.getSize,
    RectangleShape.new, RectangleShape.set_position, RectangleShape.set_size,
    Text.bounds, Text.set_position]

/-- Claim C8 (amended): after `set_position(p)`, `position()` equals `p` and
equals the rectangle's position, and the rectangle extent returned by
`size()` equals label bounds plus paddings — hence it is unchanged exactly
when it already had that derived value (a pending `set_size` override is
discarded instead). -/
theorem set_position_spec (b : Button) (p : Vec2) :
    (b.set_position p).getPosition = p ∧
    (b.set_position p).rect.position = p ∧
    (b.set_position p).getSize =
      ⟨b.label.bounds.width + b.paddings.left + b.paddings.right,
       b.label.bounds.height + b.paddings.top + b.paddings.bottom⟩ ∧
    (b.getSize = ⟨b.label.bounds.width + b.paddings.left + b.paddings.right,
                  b.label.bounds.height + b.paddings.top + b.paddings.bottom⟩ →
      (b.set_position p).getSize = b.getSize) := by
  refine ⟨rfl, rfl, rfl, fun h => ?_⟩
  rw [h]
  rfl

/-- Witness for claim C8 (amended): a fresh Button is in derived-size mode,
and moving it to (5, 5) keeps its size (40, 20). -/
theorem set_position_spec_witness :
    (Button.new ⟨40, 20⟩).getSize =
      ⟨(Button.new ⟨40, 20⟩).label.bounds.width + (Button.new ⟨40, 20⟩).paddings.left +
          (Button.new ⟨40, 20⟩).paddings.right,
       (Button.new ⟨40, 20⟩).label.bounds.height + (Button.new ⟨40, 20⟩).paddings.top +
          (Button.new ⟨40, 20⟩).paddings.bottom⟩ ∧
    ((Button.new ⟨40, 20⟩).set_position ⟨5, 5⟩).getSize = (Button.new ⟨40, 20⟩).getSize :=
  ⟨by simp [Button.new, Button.getSize, RectangleShape.new, RectangleShape.set_position,
      Text.bounds, Vec4.left, Vec4.right, Vec4.top, Vec4.bottom],
   (set_position_spec (Button.new ⟨40, 20⟩) ⟨5, 5⟩).2.2.2
     (by simp [Button.new, Button.getSize, RectangleShape.new, RectangleShape.set_position,
        Text.bounds, Vec4.left, Vec4.right, Vec4.top, Vec4.bottom])⟩

/-- Claim C10: for every code other than 0 and 1 (the codes of Click and
Hover), `emitted(k)` returns false yet still removes every pending event from
the queue, silently discarding all pending Click and Hover events. -/
theorem emitted_unknown_code (b : Button) (k : Nat) (h0 : k ≠ 0) (h1 : k ≠ 1) :
    (b.emitted k).2 = false ∧ (b.emitted k).1.events = [] := by
  refine ⟨?_, rfl⟩
  simp [Button.emitted, List.isEmpty_iff, List.filter_eq_nil_iff]
  intro e he
  cases e <;> simp [ButtonEvent.asU32] <;> omega

/-- Witness for claim C10: draining a Button holding a pending Hover with the
unknown code 2 returns false and empties the queue. -/
theorem emitted_unknown_code_witness :
    ((Button.mk ⟨⟨0, 0⟩, ⟨40, 20⟩, Color.GREEN⟩ ⟨⟨0, 0⟩, 30, ⟨40, 20⟩⟩ ⟨0, 0⟩ ⟨5, 5⟩
        ⟨0, 0, 0, 0⟩ [ButtonEvent.Hover] true ⟨0, 0⟩).emitted 2).2 = false ∧
    ((Button.mk ⟨⟨0, 0⟩, ⟨40, 20⟩, Color.GREEN⟩ ⟨⟨0, 0⟩, 30, ⟨40, 20⟩⟩ ⟨0, 0⟩ ⟨5, 5⟩
        ⟨0, 0, 0, 0⟩ [ButtonEvent.Hover] true ⟨0, 0⟩).emitted 2).1.events = [] :=
  emitted_unknown_code _ 2 (by simp) (by simp)
